import Mathlib

/-!
Verification of the snippety repository's Snippet Store and Template Cache
against its design specification.

The Go code is shallowly embedded: `time.Time` values become integer
timestamps (seconds), the MySQL table becomes an explicit list of rows, and
each fallible driver call (`DB.Exec`, `QueryRow(...).Scan`, `rows.Scan`,
`rows.Err`, `filepath.Glob`, template parsing) is parameterised by the
outcome the driver would deliver, so that both success paths and failure
paths of the Go control flow are represented.
-/

namespace Snippety

/-- Error values that can flow through the Go code: the sentinel
`sql.ErrNoRows`, the models package's `ErrNoRecord`, and opaque
driver-level or parse-level failures distinguished by a code. -/
inductive GoError
  | sqlErrNoRows
  | errNoRecord
  | driverFailure (code : Nat)
  | parseFailure (code : Nat)
deriving DecidableEq, Repr

/-- `time.Time` modelled as seconds on the UTC timeline. -/
abbrev Timestamp := Int

/-- One day, in seconds: the unit of the `INTERVAL ? DAY` clause. -/
def secondsPerDay : Int := 86400

/-- The `Snippet` struct of the models package. -/
structure Snippet where
  ID : Int
  Title : String
  Content : String
  Created : Timestamp
  Expires : Timestamp
deriving DecidableEq, Repr

instance : Inhabited Snippet := ⟨⟨0, "", "", 0, 0⟩⟩

/-- State of the `snippets` table: its rows, the next auto-increment
identifier, and the value `UTC_TIMESTAMP()` yields for the statement
being executed. -/
structure SnippetDB where
  rows : List Snippet
  nextId : Int
  now : Timestamp
deriving Repr

/-- A value passed to the driver through a positional placeholder. -/
inductive SqlParam
  | str (v : String)
  | int (v : Int)
deriving DecidableEq, Repr

/-- A single driver call: the SQL text handed to the database and the
placeholder parameters passed alongside it. -/
structure DbCall where
  stmtText : String
  params : List SqlParam
deriving DecidableEq, Repr

/-- The SQL text of the `Insert` statement. -/
def insertStmt : String :=
  "INSERT INTO snippets (title, content, created, expires) VALUES(?, ?, UTC_TIMESTAMP(), DATE_ADD(UTC_TIMESTAMP(), INTERVAL ? DAY))"

/-- The SQL text of the `Get` statement. -/
def getStmt : String :=
  "SELECT id, title, content, created, expires FROM snippets WHERE expires > UTC_TIMESTAMP() AND id = ?"

/-- The SQL text of the `Latest` statement. -/
def latestStmt : String :=
  "SELECT id, title, content, created, expires FROM snippets WHERE expires > UTC_TIMESTAMP() ORDER BY id DESC LIMIT 10"

/-- The driver call issued by `Insert`: `m.DB.Exec(stmt, title, content, expires)`. -/
def insertCall (title content : String) (expires : Int) : DbCall :=
  ⟨insertStmt, [.str title, .str content, .int expires]⟩

/-- The driver call issued by `Get`: `m.DB.QueryRow(stmt, id)`. -/
def getCall (id : Int) : DbCall :=
  ⟨getStmt, [.int id]⟩

/-- The driver call issued by `Latest`: `m.DB.Query(stmt)`. -/
def latestCall : DbCall :=
  ⟨latestStmt, []⟩

/-- Rows selected by the `Get` statement: `WHERE expires > UTC_TIMESTAMP()
AND id = ?`. -/
def getQueryRows (db : SnippetDB) (id : Int) : List Snippet :=
  db.rows.filter (fun s => decide (db.now < s.Expires ∧ s.ID = id))

/-- The comparison realising `ORDER BY id DESC`. -/
def idDescRel (a b : Snippet) : Prop := b.ID ≤ a.ID

instance : DecidableRel idDescRel := fun a b => Int.decLe b.ID a.ID

instance : IsTotal Snippet idDescRel := ⟨fun a b => le_total b.ID a.ID⟩

instance : IsTrans Snippet idDescRel :=
  ⟨fun _ _ _ h1 h2 => le_trans h2 h1⟩

/-- Rows delivered by the `Latest` statement: the live rows, ordered by
identifier descending, truncated by `LIMIT 10`. -/
def latestQueryRows (db : SnippetDB) : List Snippet :=
  (((db.rows.filter (fun s => decide (db.now < s.Expires))).insertionSort
    idDescRel).take 10)

/-- Effect of executing the `INSERT` statement: appends a row whose
creation time is the statement's `UTC_TIMESTAMP()` and whose expiry is
that same timestamp plus `days` days (MySQL evaluates `UTC_TIMESTAMP()`
once per statement), and yields the assigned identifier. -/
def execInsert (db : SnippetDB) (title content : String) (days : Int) :
    SnippetDB × Int :=
  let s : Snippet :=
    { ID := db.nextId, Title := title, Content := content,
      Created := db.now, Expires := db.now + days * secondsPerDay }
  ({ db with rows := db.rows ++ [s], nextId := db.nextId + 1 }, db.nextId)

/-- Outcomes of the two driver calls `Insert` makes. -/
structure InsertEnv where
  execErr : Option GoError
  lastInsertIdErr : Option GoError

namespace SnippetModel

/-- `SnippetModel.Insert`. Returns the new database state together with
the Go return values `(int, error)`. When `DB.Exec` fails the source
returns `0, nil`: the database is untouched and the error value is
dropped. When `LastInsertId` fails its error is returned. -/
def Insert (db : SnippetDB) (env : InsertEnv) (title content : String)
    (expires : Int) : SnippetDB × Int × Option GoError :=
  match env.execErr with
  | some _ => (db, 0, none)
  | none =>
    let r := execInsert db title content expires
    match env.lastInsertIdErr with
    | some e => (r.1, 0, some e)
    | none => (r.1, r.2, none)

/-- `database/sql` semantics of `QueryRow(stmt, id).Scan(...)`: a driver
failure surfaces as an error; otherwise the first row the statement
selects is scanned, and an empty result set yields `sql.ErrNoRows`. -/
def queryRowScan (db : SnippetDB) (driverErr : Option Nat) (id : Int) :
    Except GoError Snippet :=
  match driverErr with
  | some c => .error (.driverFailure c)
  | none =>
    match getQueryRows db id with
    | [] => .error .sqlErrNoRows
    | s :: _ => .ok s

/-- `SnippetModel.Get`: scans the selected row; `sql.ErrNoRows` is
translated to `ErrNoRecord`, every other error is returned as is. -/
def Get (db : SnippetDB) (driverErr : Option Nat) (id : Int) :
    Snippet × Option GoError :=
  match queryRowScan db driverErr id with
  | .error e =>
    if e = .sqlErrNoRows then (default, some .errNoRecord)
    else (default, some e)
  | .ok s => (s, none)

/-- The `rows.Next / rows.Scan` loop of `Latest`: scans each delivered row
in order, accumulating scanned snippets; a scan failure at position `i`
aborts with that error. -/
def latestLoop : List Snippet → (Nat → Option GoError) → Nat →
    List Snippet → Except GoError (List Snippet)
  | [], _, _, acc => .ok acc
  | s :: rest, scanErr, i, acc =>
    match scanErr i with
    | some e => .error e
    | none => latestLoop rest scanErr (i + 1) (acc ++ [s])

/-- `SnippetModel.Latest`, returning the Go `([]Snippet, error)` pair
(the nil slice is the empty list). `DB.Query` failure, a scan failure,
and a `rows.Err()` failure each return `nil, err`. -/
def Latest (db : SnippetDB) (queryErr : Option GoError)
    (scanErr : Nat → Option GoError) (rowsErr : Option GoError) :
    List Snippet × Option GoError :=
  match queryErr with
  | some e => ([], some e)
  | none =>
    match latestLoop (latestQueryRows db) scanErr 0 [] with
    | .error e => ([], some e)
    | .ok snippets =>
      match rowsErr with
      | some e => ([], some e)
      | none => (snippets, none)

end SnippetModel

/-- A database whose table is empty. -/
def emptyDB : SnippetDB := ⟨[], 1, 0⟩

/-- A database holding one live row. -/
def sampleDB : SnippetDB :=
  ⟨[⟨1, "Test", "Body", 0, 604800⟩], 2, 0⟩

/-- The Go template packages. `templates.go` imports `text/template`; the
repository's notes describe `html/template` as the escaping variant. -/
inductive TemplateEngine
  | textTemplate
  | htmlTemplate
deriving DecidableEq, Repr

/-- The engine the template-cache component imports and builds its
compiled sets with: `import "text/template"`. -/
def cacheTemplateEngine : TemplateEngine := .textTemplate

/-- Whether an engine contextually escapes interpolated data. Per the
repository's own notes, `html/template` "automatically escapes any data
that is yielded between the action tags" while `text/template` does not. -/
def TemplateEngine.contextualEscapes : TemplateEngine → Bool
  | .textTemplate => false
  | .htmlTemplate => true

/-- HTML escaping of one character, as the escaping engine applies it to
interpolated data. The quote and apostrophe characters are written by
code point to keep the source seven-bit clean. -/
def htmlEscapeChar (c : Char) : String :=
  if c = '<' then "&lt;"
  else if c = '>' then "&gt;"
  else if c = '&' then "&amp;"
  else if c = Char.ofNat 34 then "&#34;"
  else if c = Char.ofNat 39 then "&#39;"
  else String.singleton c

/-- HTML escaping of a string. -/
def htmlEscape (s : String) : String :=
  String.join (s.toList.map htmlEscapeChar)

/-- What a compiled template set writes for an interpolated dynamic
value: the escaped form under an escaping engine, the value verbatim
otherwise. -/
def renderValue (e : TemplateEngine) (v : String) : String :=
  if e.contextualEscapes then htmlEscape v else v

/-- One composition step applied to a template set under construction. -/
inductive ParseStep
  | bindFuncs (names : List String)
  | parseFiles (files : List String)
  | parseGlob (pattern : String)
deriving DecidableEq, Repr

/-- A compiled template set: its name and the composition steps applied,
in order. -/
structure Template where
  name : String
  steps : List ParseStep
deriving DecidableEq, Repr

/-- `template.New(name)`. -/
def templateNew (name : String) : Template := ⟨name, []⟩

/-- `.Funcs(functions)`: binds the helper-function map. -/
def Template.funcsStep (t : Template) (names : List String) : Template :=
  { t with steps := t.steps ++ [.bindFuncs names] }

/-- `.ParseFiles(files...)`. -/
def Template.parseFilesStep (t : Template) (files : List String) : Template :=
  { t with steps := t.steps ++ [.parseFiles files] }

/-- `.ParseGlob(pattern)`. -/
def Template.parseGlobStep (t : Template) (pattern : String) : Template :=
  { t with steps := t.steps ++ [.parseGlob pattern] }

/-- The names in the `template.FuncMap` bound to every page set. -/
def functions : List String := ["humanDate"]

/-- The glob pattern enumerating page templates. -/
def pagesPattern : String := "./ui/html/pages/*.tmpl.html"

/-- The shared base layout file. -/
def baseLayoutPath : String := "./ui/html/base.tmpl.html"

/-- The glob pattern for the shared partial templates. -/
def partialsGlobPattern : String := "./ui/html/partials/*.tmpl.html"

/-- Abstract filesystem and parser outcomes for the template cache:
`globErr`/`globFiles` are the result of `filepath.Glob` on a pattern,
`parseFileErr` the failure (if any) of reading and parsing a file, and
`parseGlobErr` the failure (if any) of `ParseGlob` on a pattern. -/
structure TmplFS where
  globErr : String → Option GoError
  globFiles : String → List String
  parseFileErr : String → Option GoError
  parseGlobErr : String → Option GoError

/-- Splits a character list into the segments delimited by `/`. -/
def splitSlash : List Char → List (List Char)
  | [] => [[]]
  | c :: rest =>
    if c = '/' then [] :: splitSlash rest
    else
      match splitSlash rest with
      | [] => [[c]]
      | seg :: segs => (c :: seg) :: segs

/-- `filepath.Base`: the last element of the path, with trailing
separators removed; `"."` for the empty path, `"/"` for all-separator
paths. -/
def filepathBase (p : String) : String :=
  match (((splitSlash p.toList).map String.mk).filter (fun s => s ≠ "")).getLast? with
  | some last => last
  | none => if p = "" then "." else "/"

/-- The body of the page loop: `template.New(name).Funcs(functions).ParseFiles(base)`,
then `ts.ParseGlob(partials)`, then `ts.ParseFiles(page)`, each step
aborting on error. -/
def buildPageSet (fs : TmplFS) (page : String) : Except GoError Template :=
  let name := filepathBase page
  match fs.parseFileErr baseLayoutPath with
  | some e => .error e
  | none =>
    let ts := ((templateNew name).funcsStep functions).parseFilesStep [baseLayoutPath]
    match fs.parseGlobErr partialsGlobPattern with
    | some e => .error e
    | none =>
      let ts := ts.parseGlobStep partialsGlobPattern
      match fs.parseFileErr page with
      | some e => .error e
      | none => .ok (ts.parseFilesStep [page])

/-- The map assignment `cache[name] = ts`: replaces the entry for the
key if present, appends it otherwise. -/
def mapInsert : List (String × Template) → String → Template →
    List (String × Template)
  | [], k, v => [(k, v)]
  | p :: rest, k, v => if p.1 = k then (k, v) :: rest else p :: mapInsert rest k v

/-- Map lookup, `none` signalling an unknown page. -/
def mapLookup (m : List (String × Template)) (k : String) : Option Template :=
  (m.find? (fun p => p.1 = k)).map (fun p => p.2)

/-- The `for _, page := range pages` loop of `newTemplateCache`. -/
def cacheLoop (fs : TmplFS) : List String → List (String × Template) →
    Option (List (String × Template)) × Option GoError
  | [], cache => (some cache, none)
  | page :: rest, cache =>
    match buildPageSet fs page with
    | .error e => (none, some e)
    | .ok ts => cacheLoop fs rest (mapInsert cache (filepathBase page) ts)

/-- `newTemplateCache`, returning the Go `(map, error)` pair; `none`
stands for the nil map returned on the error paths, while the cache
built on success starts as a non-nil empty map. -/
def newTemplateCache (fs : TmplFS) :
    Option (List (String × Template)) × Option GoError :=
  match fs.globErr pagesPattern with
  | some e => (none, some e)
  | none => cacheLoop fs (fs.globFiles pagesPattern) []

/-- How `main` ends its startup sequence. -/
inductive StartupOutcome
  | exited (code : Nat)
  | serving (cache : List (String × Template))
deriving Repr

/-- The startup sequence of `main`: a database-open failure exits with
code 1; a template-cache construction failure exits with code 1;
otherwise the server starts serving with the built cache. -/
def mainStartup (dbOpenErr : Option GoError) (fs : TmplFS) : StartupOutcome :=
  match dbOpenErr with
  | some _ => .exited 1
  | none =>
    match newTemplateCache fs with
    | (_, some _) => .exited 1
    | (cacheOpt, none) => .serving (cacheOpt.getD [])

/-- The template set `newTemplateCache` stores for a page that parses
successfully: helper functions bound first, then the base layout, the
partials, and the page itself, named and keyed by the page's base name. -/
def expectedPageSet (page : String) : Template :=
  ⟨filepathBase page,
   [.bindFuncs functions, .parseFiles [baseLayoutPath],
    .parseGlob partialsGlobPattern, .parseFiles [page]]⟩

/-- A filesystem with one page template and no failures. -/
def sampleFS : TmplFS :=
  ⟨fun _ => none,
   fun pat => if pat = pagesPattern then ["./ui/html/pages/home.tmpl.html"] else [],
   fun _ => none,
   fun _ => none⟩

/-- `sampleFS` with the base layout failing to parse. -/
def sampleFSBadBase : TmplFS :=
  ⟨fun _ => none,
   fun pat => if pat = pagesPattern then ["./ui/html/pages/home.tmpl.html"] else [],
   fun f => if f = baseLayoutPath then some (.parseFailure 3) else none,
   fun _ => none⟩

/-- A filesystem whose page directory matches no files. -/
def sampleFSNoPages : TmplFS :=
  ⟨fun _ => none, fun _ => [], fun _ => none, fun _ => none⟩

/-! ## Helper lemmas about the store -/

theorem mem_getQueryRows {db : SnippetDB} {id : Int} {s : Snippet} :
    s ∈ getQueryRows db id ↔ s ∈ db.rows ∧ db.now < s.Expires ∧ s.ID = id := by
  simp [getQueryRows, List.mem_filter]

theorem getQueryRows_eq_nil_iff {db : SnippetDB} {id : Int} :
    getQueryRows db id = [] ↔ ∀ s ∈ db.rows, ¬(db.now < s.Expires ∧ s.ID = id) := by
  simp [getQueryRows, List.filter_eq_nil_iff]

theorem latestLoop_all_ok (rows : List Snippet) : ∀ (i : Nat) (acc : List Snippet),
    SnippetModel.latestLoop rows (fun _ => none) i acc = .ok (acc ++ rows) := by
  induction rows with
  | nil => intro i acc; simp [SnippetModel.latestLoop]
  | cons s rest ih =>
    intro i acc
    simp [SnippetModel.latestLoop, ih (i + 1) (acc ++ [s])]

theorem latest_ok (db : SnippetDB) :
    SnippetModel.Latest db none (fun _ => none) none = (latestQueryRows db, none) := by
  simp [SnippetModel.Latest, latestLoop_all_ok]

theorem latestLoop_fails (rows : List Snippet) : ∀ (f : Nat → Option GoError)
    (i : Nat) (acc : List Snippet), (∃ j < rows.length, f (i + j) ≠ none) →
    ∃ e, SnippetModel.latestLoop rows f i acc = .error e := by
  induction rows with
  | nil => intro f i acc h; simp at h
  | cons s rest ih =>
    intro f i acc h
    cases hf : f i with
    | some e => exact ⟨e, by simp [SnippetModel.latestLoop, hf]⟩
    | none =>
      obtain ⟨j, hj, hne⟩ := h
      cases j with
      | zero => simp [hf] at hne
      | succ j' =>
        have hrec : ∃ j < rest.length, f (i + 1 + j) ≠ none := by
          refine ⟨j', by simpa using hj, ?_⟩
          have : i + 1 + j' = i + (j' + 1) := by omega
          rw [this]; exact hne
        obtain ⟨e, he⟩ := ih f (i + 1) (acc ++ [s]) hrec
        exact ⟨e, by simp [SnippetModel.latestLoop, hf, he]⟩

theorem latestLoop_ok_of_all_none (rows : List Snippet) : ∀ (f : Nat → Option GoError)
    (i : Nat) (acc : List Snippet), (∀ j < rows.length, f (i + j) = none) →
    SnippetModel.latestLoop rows f i acc = .ok (acc ++ rows) := by
  induction rows with
  | nil => intro f i acc _; simp [SnippetModel.latestLoop]
  | cons s rest ih =>
    intro f i acc h
    have h0 : f i = none := by simpa using h 0 (by simp)
    have hrest : ∀ j < rest.length, f (i + 1 + j) = none := by
      intro j hj
      have : i + 1 + j = i + (j + 1) := by omega
      rw [this]; exact h (j + 1) (by simpa using hj)
    simp [SnippetModel.latestLoop, h0, ih f (i + 1) (acc ++ [s]) hrest]

/-! ## Claim theorems -/

/-- C1: the claim states that whenever the INSERT execution fails, Insert
returns a non-nil error. The source does the opposite: on `DB.Exec`
failure it executes `return 0, nil`, discarding the error. Evaluated here
at a concrete failing input: a driver failure during Exec yields an
unchanged database and the return values `(0, nil)`. -/
theorem insert_swallows_exec_error :
    SnippetModel.Insert emptyDB ⟨some (.driverFailure 7), none⟩ "Test" "Body" 7
      = (emptyDB, 0, none) := rfl

/-- C2: the claim states that the engine chosen by the template-cache
component contextually escapes interpolated values. The component imports
`text/template`, which does not escape: a markup-bearing dynamic value is
rendered verbatim, unlike the escaping engine's output. -/
theorem cache_engine_renders_unescaped :
    cacheTemplateEngine = TemplateEngine.textTemplate ∧
    cacheTemplateEngine.contextualEscapes = false ∧
    renderValue cacheTemplateEngine "<script>x</script>" = "<script>x</script>" ∧
    renderValue TemplateEngine.htmlTemplate "<script>x</script>"
      = "&lt;script&gt;x&lt;/script&gt;" := by
  refine ⟨rfl, rfl, rfl, ?_⟩
  decide

/-- C8: in all three store operations the SQL text handed to the driver
is a fixed constant, identical across all user-supplied values, and the
user-supplied values travel only as positional placeholder parameters. -/
theorem fixed_statement_texts (t1 c1 t2 c2 : String) (e1 e2 i1 i2 : Int) :
    (insertCall t1 c1 e1).stmtText = insertStmt ∧
    (insertCall t1 c1 e1).stmtText = (insertCall t2 c2 e2).stmtText ∧
    (insertCall t1 c1 e1).params = [.str t1, .str c1, .int e1] ∧
    (getCall i1).stmtText = getStmt ∧
    (getCall i1).stmtText = (getCall i2).stmtText ∧
    (getCall i1).params = [.int i1] ∧
    latestCall.stmtText = latestStmt ∧
    latestCall.params = [] :=
  ⟨rfl, rfl, rfl, rfl, rfl, rfl, rfl, rfl⟩

/-- C3: with no driver failure, `Get db none id` succeeds (nil error)
exactly when a record with that id exists and is unexpired; on success
the returned snippet is such a live record; it returns `ErrNoRecord`
exactly when no live record with that id exists; and a driver failure
propagates as a `driverFailure` value distinct from `ErrNoRecord`. -/
theorem get_live_record_spec (db : SnippetDB) (id : Int) (c : Nat) :
    ((SnippetModel.Get db none id).2 = none ↔
      ∃ s ∈ db.rows, s.ID = id ∧ db.now < s.Expires) ∧
    ((SnippetModel.Get db none id).2 = none →
      (SnippetModel.Get db none id).1 ∈ db.rows ∧
      (SnippetModel.Get db none id).1.ID = id ∧
      db.now < (SnippetModel.Get db none id).1.Expires) ∧
    ((SnippetModel.Get db none id).2 = some GoError.errNoRecord ↔
      ¬ ∃ s ∈ db.rows, s.ID = id ∧ db.now < s.Expires) ∧
    (SnippetModel.Get db (some c) id = (default, some (GoError.driverFailure c)) ∧
      GoError.driverFailure c ≠ GoError.errNoRecord) := by
  have hdrv : SnippetModel.Get db (some c) id
      = (default, some (GoError.driverFailure c)) := by
    simp [SnippetModel.Get, SnippetModel.queryRowScan]
  cases hq : getQueryRows db id with
  | nil =>
    have hno : ¬ ∃ s ∈ db.rows, s.ID = id ∧ db.now < s.Expires := by
      rw [getQueryRows_eq_nil_iff] at hq
      rintro ⟨s, hs, hid, hexp⟩
      exact hq s hs ⟨hexp, hid⟩
    have hget : SnippetModel.Get db none id = (default, some GoError.errNoRecord) := by
      simp [SnippetModel.Get, SnippetModel.queryRowScan, hq]
    refine ⟨?_, ?_, ?_, hdrv, by simp⟩
    · rw [hget]; simpa using hno
    · rw [hget]; simp
    · rw [hget]; simpa using hno
  | cons s rest =>
    have hmem : s ∈ getQueryRows db id := by rw [hq]; exact List.mem_cons_self s rest
    rw [mem_getQueryRows] at hmem
    have hget : SnippetModel.Get db none id = (s, none) := by
      simp [SnippetModel.Get, SnippetModel.queryRowScan, hq]
    refine ⟨?_, ?_, ?_, hdrv, by simp⟩
    · rw [hget]
      simp only [true_iff]
      exact ⟨s, hmem.1, hmem.2.2, hmem.2.1⟩
    · rw [hget]
      intro _
      exact ⟨hmem.1, hmem.2.2, hmem.2.1⟩
    · rw [hget]
      have hex : ∃ s ∈ db.rows, s.ID = id ∧ db.now < s.Expires :=
        ⟨s, hmem.1, hmem.2.2, hmem.2.1⟩
      simp [hex]

/-- C3 witness: the specification of `Get` instantiated on the
one-row sample database. -/
theorem get_live_record_spec_witness :
    ((SnippetModel.Get sampleDB none 1).2 = none ↔
      ∃ s ∈ sampleDB.rows, s.ID = 1 ∧ sampleDB.now < s.Expires) ∧
    ((SnippetModel.Get sampleDB none 1).2 = none →
      (SnippetModel.Get sampleDB none 1).1 ∈ sampleDB.rows ∧
      (SnippetModel.Get sampleDB none 1).1.ID = 1 ∧
      sampleDB.now < (SnippetModel.Get sampleDB none 1).1.Expires) ∧
    ((SnippetModel.Get sampleDB none 1).2 = some GoError.errNoRecord ↔
      ¬ ∃ s ∈ sampleDB.rows, s.ID = 1 ∧ sampleDB.now < s.Expires) ∧
    (SnippetModel.Get sampleDB (some 0) 1
        = (default, some (GoError.driverFailure 0)) ∧
      GoError.driverFailure 0 ≠ GoError.errNoRecord) :=
  get_live_record_spec sampleDB 1 0

theorem latestQueryRows_live {db : SnippetDB} {s : Snippet}
    (h : s ∈ latestQueryRows db) : db.now < s.Expires := by
  unfold latestQueryRows at h
  have h1 := List.mem_of_mem_take h
  rw [(List.perm_insertionSort idDescRel _).mem_iff] at h1
  simpa using (List.mem_filter.mp h1).2

theorem latestQueryRows_strict_desc {db : SnippetDB}
    (hids : (db.rows.map Snippet.ID).Nodup) :
    (latestQueryRows db).Pairwise (fun a b => b.ID < a.ID) := by
  set fil := db.rows.filter (fun s => decide (db.now < s.Expires)) with hfil
  have hfilnodup : (fil.map Snippet.ID).Nodup :=
    ((List.filter_sublist db.rows).map Snippet.ID).nodup hids
  have hsortnodup : ((fil.insertionSort idDescRel).map Snippet.ID).Nodup := by
    rw [((List.perm_insertionSort idDescRel fil).map Snippet.ID).nodup_iff]
    exact hfilnodup
  have hne : (fil.insertionSort idDescRel).Pairwise (fun a b => a.ID ≠ b.ID) :=
    List.pairwise_map.mp hsortnodup
  have hle : (fil.insertionSort idDescRel).Pairwise idDescRel :=
    List.sorted_insertionSort idDescRel fil
  have hlt : (fil.insertionSort idDescRel).Pairwise (fun a b => b.ID < a.ID) :=
    (hle.and hne).imp (fun h => lt_of_le_of_ne h.1 h.2.symm)
  exact List.Pairwise.sublist (List.take_sublist 10 _) hlt

theorem latestQueryRows_nil {db : SnippetDB}
    (h : ∀ s ∈ db.rows, ¬ db.now < s.Expires) : latestQueryRows db = [] := by
  have hfil : db.rows.filter (fun s => decide (db.now < s.Expires)) = [] := by
    rw [List.filter_eq_nil_iff]; simpa using h
  simp [latestQueryRows, hfil]

/-- C4: with no driver failures, `Latest` returns a nil error, a list of
at most 10 snippets, each with expiry strictly later than the current
time, strictly descending by identifier (identifiers being unique in the
table); with no live snippets it returns the empty sequence, still with a
nil error. -/
theorem latest_spec (db : SnippetDB)
    (hids : (db.rows.map Snippet.ID).Nodup) :
    (SnippetModel.Latest db none (fun _ => none) none).2 = none ∧
    (SnippetModel.Latest db none (fun _ => none) none).1.length ≤ 10 ∧
    (∀ s ∈ (SnippetModel.Latest db none (fun _ => none) none).1,
      db.now < s.Expires) ∧
    (SnippetModel.Latest db none (fun _ => none) none).1.Pairwise
      (fun a b => b.ID < a.ID) ∧
    ((∀ s ∈ db.rows, ¬ db.now < s.Expires) →
      (SnippetModel.Latest db none (fun _ => none) none).1 = []) := by
  rw [latest_ok]
  exact ⟨rfl, List.length_take_le 10 _, fun s hs => latestQueryRows_live hs,
    latestQueryRows_strict_desc hids, fun h => latestQueryRows_nil h⟩

/-- C4 witness: the `Latest` specification instantiated on the one-row
sample database, whose identifiers are trivially unique. -/
theorem latest_spec_witness :
    (SnippetModel.Latest sampleDB none (fun _ => none) none).2 = none ∧
    (SnippetModel.Latest sampleDB none (fun _ => none) none).1.length ≤ 10 ∧
    (∀ s ∈ (SnippetModel.Latest sampleDB none (fun _ => none) none).1,
      sampleDB.now < s.Expires) ∧
    (SnippetModel.Latest sampleDB none (fun _ => none) none).1.Pairwise
      (fun a b => b.ID < a.ID) ∧
    ((∀ s ∈ sampleDB.rows, ¬ sampleDB.now < s.Expires) →
      (SnippetModel.Latest sampleDB none (fun _ => none) none).1 = []) :=
  latest_spec sampleDB (by decide)

/-- C6: a successful Insert with a positive `lifetimeDays = N` (and a
fresh auto-increment identifier) returns a nil error and the assigned
identifier, and an immediate Get on that identifier returns the persisted
record, whose creation time is the statement's current UTC time and whose
expiry is that creation time plus N days. -/
theorem insert_then_get (db : SnippetDB) (title content : String) (days : Int)
    (hdays : 0 < days) (hfresh : ∀ s ∈ db.rows, s.ID ≠ db.nextId) :
    (SnippetModel.Insert db ⟨none, none⟩ title content days).2.2 = none ∧
    (SnippetModel.Insert db ⟨none, none⟩ title content days).2.1 = db.nextId ∧
    SnippetModel.Get (SnippetModel.Insert db ⟨none, none⟩ title content days).1
        none db.nextId =
      ({ ID := db.nextId, Title := title, Content := content,
         Created := db.now, Expires := db.now + days * secondsPerDay }, none) := by
  have hsec : (0 : Int) < secondsPerDay := by norm_num [secondsPerDay]
  have hexp : db.now < db.now + days * secondsPerDay :=
    lt_add_of_pos_right _ (mul_pos hdays hsec)
  refine ⟨rfl, rfl, ?_⟩
  set newS : Snippet :=
    { ID := db.nextId, Title := title, Content := content,
      Created := db.now, Expires := db.now + days * secondsPerDay } with hnewS
  show SnippetModel.Get ⟨db.rows ++ [newS], db.nextId + 1, db.now⟩ none db.nextId
    = (newS, none)
  have hq : getQueryRows ⟨db.rows ++ [newS], db.nextId + 1, db.now⟩ db.nextId
      = [newS] := by
    simp only [getQueryRows, List.filter_append]
    rw [List.filter_eq_nil_iff.mpr ?hrows]
    case hrows =>
      intro s hs
      simp [hfresh s hs]
    simp [hnewS, hexp]
  simp [SnippetModel.Get, SnippetModel.queryRowScan, hq]

/-- C6 witness: inserting into the empty database with a 7-day lifetime
and immediately fetching the assigned identifier. -/
theorem insert_then_get_witness :
    (SnippetModel.Insert emptyDB ⟨none, none⟩ "Test" "Body" 7).2.2 = none ∧
    (SnippetModel.Insert emptyDB ⟨none, none⟩ "Test" "Body" 7).2.1
      = emptyDB.nextId ∧
    SnippetModel.Get (SnippetModel.Insert emptyDB ⟨none, none⟩ "Test" "Body" 7).1
        none emptyDB.nextId =
      ({ ID := emptyDB.nextId, Title := "Test", Content := "Body",
         Created := emptyDB.now,
         Expires := emptyDB.now + 7 * secondsPerDay }, none) :=
  insert_then_get emptyDB "Test" "Body" 7 (by decide) (by decide)

/-- C9: whenever a scan failure occurs on some delivered row, or the
post-iteration `rows.Err()` check fails, `Latest` returns the nil slice
together with a non-nil error — never a partial list with a nil error. -/
theorem latest_failure_no_partial (db : SnippetDB)
    (scanErr : Nat → Option GoError) (rowsErr : Option GoError)
    (hfail : (∃ i < (latestQueryRows db).length, scanErr i ≠ none) ∨
      rowsErr ≠ none) :
    ∃ e, SnippetModel.Latest db none scanErr rowsErr = ([], some e) := by
  rcases hfail with hscan | hrows
  · obtain ⟨i, hi, hne⟩ := hscan
    have hsh : ∃ j < (latestQueryRows db).length, scanErr (0 + j) ≠ none :=
      ⟨i, hi, by simpa using hne⟩
    obtain ⟨e, he⟩ := latestLoop_fails (latestQueryRows db) scanErr 0 [] hsh
    exact ⟨e, by simp [SnippetModel.Latest, he]⟩
  · cases hrowsE : rowsErr with
    | none => exact absurd hrowsE hrows
    | some e =>
      by_cases hscan : ∃ j < (latestQueryRows db).length, scanErr (0 + j) ≠ none
      · obtain ⟨e2, he⟩ := latestLoop_fails (latestQueryRows db) scanErr 0 [] hscan
        exact ⟨e2, by simp [SnippetModel.Latest, he]⟩
      · push_neg at hscan
        have hok := latestLoop_ok_of_all_none (latestQueryRows db) scanErr 0 []
          (fun j hj => hscan j hj)
        exact ⟨e, by simp [SnippetModel.Latest, hok, hrowsE]⟩

/-- C9 witness: a scan failure on the first delivered row of the sample
database yields the nil slice and that error. -/
theorem latest_failure_no_partial_witness :
    ∃ e, SnippetModel.Latest sampleDB none
      (fun i => if i = 0 then some (GoError.driverFailure 9) else none) none
      = ([], some e) :=
  latest_failure_no_partial sampleDB
    (fun i => if i = 0 then some (GoError.driverFailure 9) else none) none
    (Or.inl ⟨0, by decide, by decide⟩)

/-! ## Helper lemmas about the template cache -/

theorem mapLookup_insert_self (m : List (String × Template)) (k : String)
    (v : Template) : mapLookup (mapInsert m k v) k = some v := by
  induction m with
  | nil => simp [mapInsert, mapLookup, List.find?]
  | cons p rest ih =>
    by_cases h : p.1 = k
    · simp [mapInsert, h, mapLookup, List.find?]
    · simpa [mapInsert, h, mapLookup, List.find?] using ih

theorem mapLookup_insert_ne (m : List (String × Template)) {k k2 : String}
    (v : Template) (h : k2 ≠ k) :
    mapLookup (mapInsert m k v) k2 = mapLookup m k2 := by
  induction m with
  | nil => simp [mapInsert, mapLookup, List.find?, Ne.symm h]
  | cons p rest ih =>
    by_cases hp : p.1 = k
    · simp [mapInsert, hp, mapLookup, List.find?, Ne.symm h]
    · by_cases hp2 : p.1 = k2
      · simp [mapInsert, hp, mapLookup, List.find?, hp2, h]
      · simpa [mapInsert, hp, mapLookup, List.find?, hp2, h] using ih

theorem buildPageSet_ok {fs : TmplFS} {page : String} {t : Template}
    (h : buildPageSet fs page = .ok t) : t = expectedPageSet page := by
  cases h1 : fs.parseFileErr baseLayoutPath with
  | some e => simp [buildPageSet, h1] at h
  | none =>
    cases h2 : fs.parseGlobErr partialsGlobPattern with
    | some e => simp [buildPageSet, h1, h2] at h
    | none =>
      cases h3 : fs.parseFileErr page with
      | some e => simp [buildPageSet, h1, h2, h3] at h
      | none =>
        simp only [buildPageSet, h1, h2, h3, Except.ok.injEq] at h
        rw [← h]
        rfl

theorem cacheLoop_none_iff (fs : TmplFS) : ∀ (ps : List String)
    (acc : List (String × Template)),
    ((cacheLoop fs ps acc).1 = none ↔ (cacheLoop fs ps acc).2 ≠ none) := by
  intro ps
  induction ps with
  | nil => intro acc; simp [cacheLoop]
  | cons p rest ih =>
    intro acc
    cases hb : buildPageSet fs p with
    | error e => simp [cacheLoop, hb]
    | ok ts =>
      simp only [cacheLoop, hb]
      exact ih _

theorem cacheLoop_lookup_frozen (fs : TmplFS) : ∀ (ps : List String)
    (acc cache : List (String × Template)) (k : String),
    cacheLoop fs ps acc = (some cache, none) →
    (∀ q ∈ ps, filepathBase q ≠ k) →
    mapLookup cache k = mapLookup acc k := by
  intro ps
  induction ps with
  | nil =>
    intro acc cache k h _
    simp [cacheLoop] at h
    rw [h]
  | cons p rest ih =>
    intro acc cache k h hnk
    cases hb : buildPageSet fs p with
    | error e => simp [cacheLoop, hb] at h
    | ok ts =>
      have h' : cacheLoop fs rest (mapInsert acc (filepathBase p) ts)
          = (some cache, none) := by
        simpa [cacheLoop, hb] using h
      rw [ih _ cache k h' (fun q hq => hnk q (List.mem_cons_of_mem _ hq))]
      exact mapLookup_insert_ne acc ts
        (Ne.symm (hnk p (List.mem_cons_self p rest)))

theorem cacheLoop_lookup (fs : TmplFS) : ∀ (ps : List String)
    (acc cache : List (String × Template)),
    cacheLoop fs ps acc = (some cache, none) →
    ∀ page ∈ ps, (ps.map filepathBase).Nodup →
    mapLookup cache (filepathBase page) = some (expectedPageSet page) := by
  intro ps
  induction ps with
  | nil => intro acc cache _ page hp _; simp at hp
  | cons p rest ih =>
    intro acc cache h page hp hnd
    cases hb : buildPageSet fs p with
    | error e => simp [cacheLoop, hb] at h
    | ok ts =>
      have hts := buildPageSet_ok hb
      have h' : cacheLoop fs rest (mapInsert acc (filepathBase p) ts)
          = (some cache, none) := by
        simpa [cacheLoop, hb] using h
      have hnd' : (∀ x ∈ rest, ¬ filepathBase x = filepathBase p) ∧
          (rest.map filepathBase).Nodup := by simpa using hnd
      rcases List.mem_cons.mp hp with rfl | hmem
      · have hnotin : ∀ q ∈ rest, filepathBase q ≠ filepathBase page :=
          fun q hq heq => hnd'.1 q hq heq
        rw [cacheLoop_lookup_frozen fs rest _ cache (filepathBase page) h' hnotin,
          mapLookup_insert_self, hts]
      · exact ih _ cache h' page hmem hnd'.2

/-- C5: template-cache construction is all-or-nothing — the cache is the
nil map exactly when a non-nil error is returned; any construction error
makes `main` exit with code 1 before serving; and a parse failure of the
base layout (the first parse performed, when at least one page exists)
surfaces as exactly that first error alongside the nil map. -/
theorem newTemplateCache_all_or_nothing (fs : TmplFS) (e : GoError) :
    ((newTemplateCache fs).1 = none ↔ (newTemplateCache fs).2 ≠ none) ∧
    ((newTemplateCache fs).2 ≠ none → mainStartup none fs = .exited 1) ∧
    (fs.globErr pagesPattern = none → fs.parseFileErr baseLayoutPath = some e →
      fs.globFiles pagesPattern ≠ [] → newTemplateCache fs = (none, some e)) := by
  refine ⟨?_, ?_, ?_⟩
  · cases hg : fs.globErr pagesPattern with
    | some e2 => simp [newTemplateCache, hg]
    | none => simpa [newTemplateCache, hg] using cacheLoop_none_iff fs _ []
  · intro h2
    rcases hnc : newTemplateCache fs with ⟨o, err⟩
    rw [hnc] at h2
    cases err with
    | none => simp at h2
    | some e2 => simp [mainStartup, hnc]
  · intro hg hbase hne
    cases hp : fs.globFiles pagesPattern with
    | nil => exact absurd hp hne
    | cons p rest =>
      have hbp : buildPageSet fs p = .error e := by
        simp [buildPageSet, hbase]
      simp [newTemplateCache, hg, hp, cacheLoop, hbp]

/-- C5 witness: a base-layout parse failure on a one-page filesystem
returns the nil map with that error, and startup exits with code 1. -/
theorem newTemplateCache_all_or_nothing_witness :
    newTemplateCache sampleFSBadBase = (none, some (GoError.parseFailure 3)) ∧
    mainStartup none sampleFSBadBase = .exited 1 :=
  ⟨(newTemplateCache_all_or_nothing sampleFSBadBase (GoError.parseFailure 3)).2.2
      (by decide) (by decide) (by decide),
   (newTemplateCache_all_or_nothing sampleFSBadBase (GoError.parseFailure 3)).2.1
      (by decide)⟩

/-- C7: for every page the glob enumerates (base names being distinct, as
for files of a single directory), a successful cache holds under the
page's directory-stripped base name a template set composed of, in
order: the helper-function binding, the shared base layout, the shared
partials, and the page file itself. -/
theorem cache_page_composition (fs : TmplFS) (cache : List (String × Template))
    (page : String)
    (hok : newTemplateCache fs = (some cache, none))
    (hmem : page ∈ fs.globFiles pagesPattern)
    (hnodup : ((fs.globFiles pagesPattern).map filepathBase).Nodup) :
    mapLookup cache (filepathBase page) =
      some ⟨filepathBase page,
        [ParseStep.bindFuncs functions, ParseStep.parseFiles [baseLayoutPath],
         ParseStep.parseGlob partialsGlobPattern, ParseStep.parseFiles [page]]⟩ := by
  have hg : fs.globErr pagesPattern = none := by
    cases hge : fs.globErr pagesPattern with
    | none => rfl
    | some e => simp [newTemplateCache, hge] at hok
  have h' : cacheLoop fs (fs.globFiles pagesPattern) [] = (some cache, none) := by
    simpa [newTemplateCache, hg] using hok
  simpa [expectedPageSet] using
    cacheLoop_lookup fs _ [] cache h' page hmem hnodup

/-- C7 witness: the composed set stored for the single page of the
sample filesystem, looked up by its base name. -/
theorem cache_page_composition_witness :
    mapLookup [("home.tmpl.html", expectedPageSet "./ui/html/pages/home.tmpl.html")]
      (filepathBase "./ui/html/pages/home.tmpl.html") =
      some ⟨filepathBase "./ui/html/pages/home.tmpl.html",
        [ParseStep.bindFuncs functions, ParseStep.parseFiles [baseLayoutPath],
         ParseStep.parseGlob partialsGlobPattern,
         ParseStep.parseFiles ["./ui/html/pages/home.tmpl.html"]]⟩ :=
  cache_page_composition sampleFS
    [("home.tmpl.html", expectedPageSet "./ui/html/pages/home.tmpl.html")]
    "./ui/html/pages/home.tmpl.html" (by decide) (by decide) (by decide)

/-- C10: when the page glob matches no files (and the glob itself does
not fail), `newTemplateCache` returns the non-nil empty map and a nil
error, startup proceeds to serving with that empty cache, and every page
lookup in it signals unknown page. -/
theorem empty_pages_cache_ok (fs : TmplFS) (k : String)
    (hglob : fs.globErr pagesPattern = none)
    (hpages : fs.globFiles pagesPattern = []) :
    newTemplateCache fs = (some [], none) ∧
    mainStartup none fs = .serving [] ∧
    mapLookup [] k = none := by
  have h : newTemplateCache fs = (some [], none) := by
    simp [newTemplateCache, hglob, hpages, cacheLoop]
  exact ⟨h, by simp [mainStartup, h], rfl⟩

/-- C10 witness: the empty-directory filesystem builds the empty cache,
serving starts, and a sample page name is reported unknown. -/
theorem empty_pages_cache_ok_witness :
    newTemplateCache sampleFSNoPages = (some [], none) ∧
    mainStartup none sampleFSNoPages = .serving [] ∧
    mapLookup [] "home.tmpl.html" = none :=
  empty_pages_cache_ok sampleFSNoPages "home.tmpl.html" rfl rfl

end Snippety
